import Mathlib

/-!
Verification development for the PlayMix repository (src/main.rs, src/actions.rs):
shallow embedding of the player-selection, sink-input-matching, art-resolution
and dial-selection logic, with theorems checking the specification's claims.

External collaborators (the D-Bus transport, the pactl/wpctl mixer tools, the
filesystem/HTTP fetchers, the `infer` MIME sniffer and the art query against a
concrete player) are modelled as oracle parameters; the repository's own logic
is translated from the Rust source.
-/

namespace PlayMix

/-! ### Sorting (models Rust `Vec::sort`, ascending stable sort)

On `Nat` and on `String` (total orders where equal elements are
indistinguishable) the result of any comparison sort is unique, so insertion
sort is observationally the same function as Rust's stable merge sort. -/

def insertAsc (le : α → α → Bool) (a : α) : List α → List α
  | [] => [a]
  | b :: bs => if le a b then a :: b :: bs else b :: insertAsc le a bs

def sortBy (le : α → α → Bool) : List α → List α
  | [] => []
  | x :: xs => insertAsc le x (sortBy le xs)

/-- Comparison used by `Vec::<usize>::sort`. -/
def natLeB (a b : Nat) : Bool := decide (a ≤ b)

/-- Lexicographic comparison backing `Vec::<String>::sort` (UTF-8 byte order
coincides with code-point order). -/
def charListLeB : List Char → List Char → Bool
  | [], _ => true
  | _ :: _, [] => false
  | a :: as, b :: bs => if a < b then true else if b < a then false else charListLeB as bs

def strLeB (a b : String) : Bool := charListLeB a.toList b.toList

/-- Models Rust `str::starts_with`. -/
def strStartsWith (s pat : String) : Bool := pat.toList.isPrefixOf s.toList

/-! ### SinkInputMatcher (main.rs, `get_album_art_for_sink_input`, lines 169-258)

`sinkInputIds` is the list of sink-input ids already filtered to the target
application identity (the pactl enumeration and its text parsing belong to the
external mixer collaborator); `players` is the list of MPRIS bus names found
for that application by `find_mpris_players_for_app`; `artOf` is the oracle for
`get_album_art_from_player`. -/

/-- The pure player-selection core of `get_album_art_for_sink_input`
(main.rs lines 210-234): sort the sink inputs ascending, locate the target,
sort the players lexicographically, refuse when there are more sink inputs
than players, else pick the player at the target's index. -/
def matchSinkToPlayer (sinkInputIds : List Nat) (players : List String)
    (targetSinkId : Nat) : Option String :=
  let sinkSeq := sortBy natLeB sinkInputIds
  match sinkSeq.findIdx? (fun id => id == targetSinkId) with
  | none => none
  | some sinkIndex =>
    let playerSeq := sortBy strLeB players
    if sinkSeq.length > playerSeq.length then none
    else playerSeq[sinkIndex]?

/-- Full `get_album_art_for_sink_input` (main.rs lines 169-258) with the art
lookup per player as an oracle: index-match first, then fall back to trying
every player instance in order. -/
def getAlbumArtForSinkInput (artOf : String → Option String)
    (sinkInputIds : List Nat) (players : List String)
    (targetSinkId : Nat) : Option String :=
  let sinkSeq := sortBy natLeB sinkInputIds
  match sinkSeq.findIdx? (fun id => id == targetSinkId) with
  | none => none
  | some sinkIndex =>
    let playerSeq := sortBy strLeB players
    if sinkSeq.length > playerSeq.length then none
    else
      let direct :=
        match playerSeq[sinkIndex]? with
        | some matchedPlayer => artOf matchedPlayer
        | none => none
      match direct with
      | some art => some art
      | none => playerSeq.findSome? artOf

/-! ### PlayerSelector (main.rs, `find_active_player`, lines 43-93) -/

/-- A candidate player: its bus name and the best-effort `PlaybackStatus`
property (`none` when the proxy creation or the property query failed). -/
structure Player where
  name : String
  status : Option String
deriving DecidableEq

inductive PlayerError where
  | noPlayerFound
deriving DecidableEq

def isPlaying (p : Player) : Bool := p.status == some "Playing"

/-- The final fallback of `find_active_player` (main.rs lines 85-92): the
first candidate, or the `No MPRIS players found` error on an empty list. -/
def firstCandidate (candidates : List Player) (lastActive : Option String) :
    Except PlayerError String × Option String :=
  match candidates with
  | [] => (Except.error PlayerError.noPlayerFound, lastActive)
  | p :: _ => (Except.ok p.name, lastActive)

/-- Core of `find_active_player` (main.rs lines 58-92) over an already-filtered
candidate list, with `LAST_ACTIVE_PLAYER` passed and returned explicitly:
first candidate that is `Playing` (recording it), else the remembered last
active player if still present, else the first candidate, else an error. -/
def selectActive (candidates : List Player) (lastActive : Option String) :
    Except PlayerError String × Option String :=
  match candidates.find? isPlaying with
  | some p => (Except.ok p.name, some p.name)
  | none =>
    match lastActive with
    | some lp =>
      if candidates.any (fun q => q.name == lp) then (Except.ok lp, lastActive)
      else firstCandidate candidates lastActive
    | none => firstCandidate candidates lastActive

/-- The candidate filter of `find_active_player` (main.rs lines 52-56). -/
def mprisCandidates (names : List String) : List String :=
  names.filter (fun name =>
    strStartsWith name "org.mpris.MediaPlayer2." &&
      name != "org.mpris.MediaPlayer2.playerctld")

/-- `find_active_player` (main.rs lines 43-93): `names` is the bus's
`ListNames` reply and `statusOf` the property-query oracle. -/
def findActivePlayer (names : List String) (statusOf : String → Option String)
    (lastActive : Option String) : Except PlayerError String × Option String :=
  selectActive ((mprisCandidates names).map (fun n => Player.mk n (statusOf n))) lastActive

/-! ### DialSelectionState (actions.rs, `VolumeDialAction::dial_rotate`,
lines 173-307)

`DIAL_STATES` maps an instance id to `(current_audio_app_index,
selected_sink_input)`; it is modelled as an association list with
insert-replaces-key semantics, matching `HashMap::insert`. -/

abbrev DialStates := List (String × (Nat × Nat))

def lookupState (states : DialStates) (instanceId : String) : Option (Nat × Nat) :=
  (states.find? (fun e => e.fst == instanceId)).map Prod.snd

def insertState (states : DialStates) (instanceId : String) (v : Nat × Nat) : DialStates :=
  (instanceId, v) :: states.filter (fun e => e.fst != instanceId)

/-- Models Rust `str::split_whitespace().next()`: first maximal run of
non-whitespace characters, if any. -/
def dropLeadingWs : List Char → List Char
  | [] => []
  | c :: cs => if c.isWhitespace then dropLeadingWs cs else c :: cs

def takeUntilWs : List Char → List Char
  | [] => []
  | c :: cs => if c.isWhitespace then [] else c :: takeUntilWs cs

def firstToken (line : String) : Option String :=
  match dropLeadingWs line.toList with
  | [] => none
  | cs => some (String.mk (takeUntilWs cs))

/-- Models `str::parse::<usize>()` on the sink-input id column: digits with an
optional leading plus sign (overflow is not modelled; pactl ids are small). -/
def parseUsize (s : String) : Option Nat :=
  let go : List Char → Option Nat := fun cs =>
    cs.foldl
      (fun acc c =>
        match acc with
        | none => none
        | some n => if c.isDigit then some (n * 10 + (c.toNat - 48)) else none)
      (some 0)
  match s.toList with
  | [] => none
  | '+' :: rest => if rest.isEmpty then none else go rest
  | cs => go cs

/-- One mixer command issued by the volume-adjust branch of `dial_rotate`. -/
inductive MixerCmd where
  /-- `wpctl set-volume @DEFAULT_AUDIO_SINK@ <change> --limit 1.0` -/
  | setMasterVolume (change : String)
  /-- `pactl set-sink-input-volume <sinkId> <change>` -/
  | setSinkInputVolume (sinkId : Nat) (change : String)
deriving DecidableEq

/-- Browse branch of `dial_rotate` (actions.rs lines 180-257):
`pactlShortLines` is the stdout of `pactl list sink-inputs short`, split into
lines. The cursor moves over `[master] ++ liveSinkInputs`, recomputed from the
fresh listing, and the instance's `DIAL_STATES` entry is replaced. -/
def dialRotateBrowse (instanceId : String) (ticks : Int)
    (pactlShortLines : List String) (states : DialStates) : DialStates :=
  let sinkInputs := pactlShortLines.filter (fun l => l != "")
  let totalItems := sinkInputs.length + 1
  let currentIndex := ((lookupState states instanceId).map Prod.fst).getD 0
  let newIndex :=
    if ticks > 0 then (currentIndex + 1) % totalItems
    else if currentIndex == 0 then totalItems - 1
    else currentIndex - 1
  let sinkInputId :=
    if newIndex == 0 then 0
    else
      match sinkInputs[newIndex - 1]? with
      | some line =>
        match firstToken line with
        | some tok =>
          match parseUsize tok with
          | some id => id
          | none => 0
        | none => 0
      | none => 0
  insertState states instanceId (newIndex, sinkInputId)

/-- `dial_rotate` (actions.rs lines 173-307): when the encoder is pressed the
browse branch rewrites the per-instance selection; otherwise the selected sink
is only read and a volume command is emitted. -/
def dialRotate (encoderPressed : Bool) (instanceId : String) (ticks : Int)
    (pactlShortLines : List String) (states : DialStates) :
    DialStates × List MixerCmd :=
  if encoderPressed then
    (dialRotateBrowse instanceId ticks pactlShortLines states, [])
  else
    let selected := ((lookupState states instanceId).map Prod.snd).getD 0
    if selected == 0 then
      let volumeChange :=
        if ticks > 0 then toString (ticks.natAbs * 5) ++ "%+"
        else toString (ticks.natAbs * 5) ++ "%-"
      (states, [MixerCmd.setMasterVolume volumeChange])
    else
      let volumeChange :=
        if ticks > 0 then "+" ++ toString (ticks.natAbs * 5) ++ "%"
        else "-" ++ toString (ticks.natAbs * 5) ++ "%"
      (states, [MixerCmd.setSinkInputVolume selected volumeChange])

/-! ### ArtResolver (main.rs, `fetch_and_convert_to_data_url`, lines 25-41)

The filesystem read, the HTTP fetch and the `infer` MIME sniffer are external
collaborators, passed as oracles; base64 is the RFC 4648 standard alphabet
with padding, as produced by `base64::engine::general_purpose::STANDARD`. -/

inductive FetchError where
  | ioError
  | httpError
deriving DecidableEq

def b64Alphabet : List Char :=
  "ABCDEFGHIJKLMNOPQRSTUVWXYZabcdefghijklmnopqrstuvwxyz0123456789+/".toList

def b64Char (n : Nat) : Char := b64Alphabet.getD n 'A'

def b64Val (c : Char) : Option Nat := b64Alphabet.findIdx? (fun a => a == c)

/-- RFC 4648 base64 encoding of a byte list (each element < 256), three bytes
to four characters, with `=` padding. -/
def b64EncodeList : List Nat → List Char
  | [] => []
  | [b0] => [b64Char (b0 / 4), b64Char (b0 % 4 * 16), '=', '=']
  | [b0, b1] => [b64Char (b0 / 4), b64Char (b0 % 4 * 16 + b1 / 16), b64Char (b1 % 16 * 4), '=']
  | b0 :: b1 :: b2 :: rest =>
    b64Char (b0 / 4) :: b64Char (b0 % 4 * 16 + b1 / 16) ::
      b64Char (b1 % 16 * 4 + b2 / 64) :: b64Char (b2 % 64) :: b64EncodeList rest

/-- Base64 decoding, the inverse used to state the round-trip property. -/
def b64DecodeList : List Char → Option (List Nat)
  | [] => some []
  | c0 :: c1 :: c2 :: c3 :: rest =>
    (b64Val c0).bind (fun v0 =>
      (b64Val c1).bind (fun v1 =>
        if c2 = '=' then
          if c3 = '=' then
            if rest = [] then some [v0 * 4 + v1 / 16] else none
          else none
        else
          (b64Val c2).bind (fun v2 =>
            if c3 = '=' then
              if rest = [] then some [v0 * 4 + v1 / 16, v1 % 16 * 16 + v2 / 4] else none
            else
              (b64Val c3).bind (fun v3 =>
                (b64DecodeList rest).map (fun tail =>
                  (v0 * 4 + v1 / 16) :: (v1 % 16 * 16 + v2 / 4) ::
                    (v2 % 4 * 64 + v3) :: tail)))))
  | _ => none

def base64Encode (bytes : List Nat) : String := String.mk (b64EncodeList bytes)

/-- The data URL assembled at main.rs lines 36-40: sniffed MIME type with the
`application/octet-stream` default, then the base64 payload. -/
def dataUrlOf (inferMime : List Nat → Option String) (bytes : List Nat) : String :=
  "data:" ++ ((inferMime bytes).getD "application/octet-stream") ++ ";base64," ++
    base64Encode bytes

/-- Models `str::trim_start_matches("file://")`: every leading occurrence of
the scheme is removed. -/
def stripFileScheme : List Char → List Char
  | 'f' :: 'i' :: 'l' :: 'e' :: ':' :: '/' :: '/' :: rest => stripFileScheme rest
  | cs => cs

/-- The byte acquisition of `fetch_and_convert_to_data_url` (main.rs lines
26-34) for non-`data:` URLs: filesystem read for `file:` URLs, HTTP otherwise. -/
def fetchBytes (readFile httpGet : String → Except FetchError (List Nat))
    (url : String) : Except FetchError (List Nat) :=
  if strStartsWith url "file:" then readFile (String.mk (stripFileScheme url.toList))
  else httpGet url

/-- `fetch_and_convert_to_data_url` (main.rs lines 25-41): `data:` URLs pass
through unchanged; otherwise the fetched bytes are sniffed and re-encoded. -/
def fetchAndConvertToDataUrl (readFile httpGet : String → Except FetchError (List Nat))
    (inferMime : List Nat → Option String) (url : String) : Except FetchError String :=
  if strStartsWith url "data:" then Except.ok url
  else
    match fetchBytes readFile httpGet url with
    | Except.error e => Except.error e
    | Except.ok bytes => Except.ok (dataUrlOf inferMime bytes)

/-! ## Helper lemmas -/

theorem length_insertAsc (le : α → α → Bool) (a : α) (l : List α) :
    (insertAsc le a l).length = l.length + 1 := by
  induction l with
  | nil => rfl
  | cons b bs ih =>
    simp only [insertAsc]
    split
    · simp
    · simp [ih]

theorem length_sortBy (le : α → α → Bool) (l : List α) :
    (sortBy le l).length = l.length := by
  induction l with
  | nil => rfl
  | cons x xs ih => simp [sortBy, length_insertAsc, ih]

theorem mem_insertAsc (le : α → α → Bool) (a b : α) (l : List α) :
    b ∈ insertAsc le a l ↔ b = a ∨ b ∈ l := by
  induction l with
  | nil => simp [insertAsc]
  | cons c cs ih =>
    simp only [insertAsc]
    split
    · simp
    · simp [ih]
      tauto

theorem mem_sortBy (le : α → α → Bool) (a : α) (l : List α) :
    a ∈ sortBy le l ↔ a ∈ l := by
  induction l with
  | nil => simp [sortBy]
  | cons x xs ih => simp [sortBy, mem_insertAsc, ih]

/-! ## Claim theorems -/

/-- C1: whenever the application has strictly more sink inputs than MPRIS
player instances, `get_album_art_for_sink_input` returns `none` for every
target sink id — both the whole function and its pure matching core refuse to
claim a match under this ambiguity. -/
theorem getAlbumArtForSinkInput_ambiguous_none (artOf : String → Option String)
    (sinkInputIds : List Nat) (players : List String) (targetSinkId : Nat)
    (h : players.length < sinkInputIds.length) :
    getAlbumArtForSinkInput artOf sinkInputIds players targetSinkId = none ∧
    matchSinkToPlayer sinkInputIds players targetSinkId = none := by
  have hlen : (sortBy strLeB players).length < (sortBy natLeB sinkInputIds).length := by
    simpa [length_sortBy] using h
  refine ⟨?_, ?_⟩ <;>
  · simp only [getAlbumArtForSinkInput, matchSinkToPlayer]
    cases hf : (sortBy natLeB sinkInputIds).findIdx? (fun id => id == targetSinkId) with
    | none => rfl
    | some i => simp [hlen]

/-- Witness for C1: two sink inputs against one player handle yields no match. -/
theorem getAlbumArtForSinkInput_ambiguous_none_witness :
    getAlbumArtForSinkInput (fun _ => some "art") [3, 7] ["p1"] 7 = none ∧
    matchSinkToPlayer [3, 7] ["p1"] 7 = none :=
  getAlbumArtForSinkInput_ambiguous_none (fun _ => some "art") [3, 7] ["p1"] 7 (by decide)

/-- C2: when the target sink id sits at position `i` of the ascending-sorted
sink-input list and there are no more sink inputs than player handles, the
matcher selects the lexicographically-sorted player handle at the same index
`i`; a target sink id absent from the list yields `none`. -/
theorem matchSinkToPlayer_index (sinkInputIds : List Nat) (players : List String)
    (targetSinkId : Nat) (i : Nat)
    (hidx : (sortBy natLeB sinkInputIds).findIdx? (fun id => id == targetSinkId) = some i)
    (hlen : sinkInputIds.length ≤ players.length) :
    (∃ p, (sortBy strLeB players)[i]? = some p ∧
      matchSinkToPlayer sinkInputIds players targetSinkId = some p) ∧
    ∀ t, t ∉ sinkInputIds → matchSinkToPlayer sinkInputIds players t = none := by
  constructor
  · have hi : i < (sortBy natLeB sinkInputIds).length := by
      rcases List.findIdx?_eq_some_iff_getElem.mp hidx with ⟨hl, _, _⟩
      exact hl
    have hi2 : i < (sortBy strLeB players).length := by
      rw [length_sortBy] at hi ⊢
      omega
    refine ⟨(sortBy strLeB players).get ⟨i, hi2⟩, ?_, ?_⟩
    · exact List.getElem?_eq_getElem hi2
    · simp only [matchSinkToPlayer, hidx]
      rw [if_neg (by simp [length_sortBy]; omega)]
      exact List.getElem?_eq_getElem hi2
  · intro t ht
    have hnone : (sortBy natLeB sinkInputIds).findIdx? (fun id => id == t) = none := by
      rw [List.findIdx?_eq_none_iff]
      intro x hx
      have : x ∈ sinkInputIds := (mem_sortBy _ _ _).mp hx
      simp only [beq_eq_false_iff_ne, ne_eq]
      rintro rfl
      exact ht this
    simp only [matchSinkToPlayer, hnone]

/-- Witness for C2: the spec's own example, sink ids `[3,7,9]` against players
`[p1,p2,p3]` — matching sink 7 selects `p2`. -/
theorem matchSinkToPlayer_index_witness :
    matchSinkToPlayer [3, 7, 9] ["p1", "p2", "p3"] 7 = some "p2" := by
  obtain ⟨⟨p, hp, hm⟩, _⟩ :=
    matchSinkToPlayer_index [3, 7, 9] ["p1", "p2", "p3"] 7 1 (by decide) (by decide)
  rw [show (sortBy strLeB ["p1", "p2", "p3"])[1]? = some "p2" from by decide] at hp
  have hpp : "p2" = p := by injection hp
  rw [← hpp] at hm
  exact hm

theorem find?_of_filter_singleton {p : α → Bool} :
    ∀ {l : List α} {a : α}, l.filter p = [a] → l.find? p = some a := by
  intro l
  induction l with
  | nil => intro a h; simp at h
  | cons x xs ih =>
    intro a h
    by_cases hx : p x
    · rw [List.filter_cons_of_pos hx] at h
      rw [List.find?_cons_of_pos _ hx]
      exact congrArg some (List.cons.injEq .. |>.mp h).1
    · rw [List.filter_cons_of_neg hx] at h
      rw [List.find?_cons_of_neg _ hx]
      exact ih h

theorem firstCandidate_snd (candidates : List Player) (lastActive : Option String) :
    (firstCandidate candidates lastActive).snd = lastActive := by
  cases candidates <;> rfl

/-- C3: a candidate set whose only `Playing` handle is `p` makes `selectActive`
return `p`'s name and record it into LastActivePlayer. -/
theorem selectActive_unique_playing (candidates : List Player)
    (lastActive : Option String) (p : Player)
    (h : candidates.filter isPlaying = [p]) :
    selectActive candidates lastActive = (Except.ok p.name, some p.name) := by
  have hf : candidates.find? isPlaying = some p := find?_of_filter_singleton h
  simp only [selectActive, hf]

/-- Witness for C3: one Playing handle among two candidates is selected and
remembered. -/
theorem selectActive_unique_playing_witness :
    selectActive
      [Player.mk "org.mpris.MediaPlayer2.firefox" (some "Paused"),
       Player.mk "org.mpris.MediaPlayer2.vlc" (some "Playing")] none =
      (Except.ok "org.mpris.MediaPlayer2.vlc", some "org.mpris.MediaPlayer2.vlc") :=
  selectActive_unique_playing _ none (Player.mk "org.mpris.MediaPlayer2.vlc" (some "Playing"))
    (by decide)

/-- C4: with no `Playing` candidate and the remembered player still among the
candidates, `selectActive` returns the remembered player; and whenever no
candidate is `Playing`, no branch changes LastActivePlayer. -/
theorem selectActive_keeps_last (candidates : List Player) (lp : String)
    (hnp : ∀ p ∈ candidates, p.status ≠ some "Playing")
    (hmem : lp ∈ candidates.map Player.name) :
    selectActive candidates (some lp) = (Except.ok lp, some lp) ∧
    ∀ lastActive : Option String, (selectActive candidates lastActive).snd = lastActive := by
  have hf : candidates.find? isPlaying = none := by
    rw [List.find?_eq_none]
    intro x hx
    simp [isPlaying, hnp x hx]
  constructor
  · obtain ⟨q, hq, hqname⟩ := List.mem_map.mp hmem
    have hany : candidates.any (fun q => q.name == lp) = true := by
      rw [List.any_eq_true]
      exact ⟨q, hq, by simp [hqname]⟩
    simp only [selectActive, hf]
    rw [if_pos hany]
  · intro lastActive
    cases lastActive with
    | none => simp only [selectActive, hf, firstCandidate_snd]
    | some lq =>
      simp only [selectActive, hf]
      by_cases hany : candidates.any (fun q => q.name == lq) = true
      · rw [if_pos hany]
      · rw [if_neg (by simpa using hany), firstCandidate_snd]

/-- Witness for C4: no candidate Playing, remembered player present — it is
returned and the remembered state is untouched. -/
theorem selectActive_keeps_last_witness :
    selectActive
      [Player.mk "org.mpris.MediaPlayer2.firefox" (some "Paused"),
       Player.mk "org.mpris.MediaPlayer2.vlc" (some "Stopped")]
      (some "org.mpris.MediaPlayer2.vlc") =
      (Except.ok "org.mpris.MediaPlayer2.vlc", some "org.mpris.MediaPlayer2.vlc") :=
  (selectActive_keeps_last _ "org.mpris.MediaPlayer2.vlc" (by decide) (by decide)).1

/-- C7: an empty candidate set fails with `NoPlayerFound`; a non-empty set with
no `Playing` handle and no valid remembered player succeeds with the first
enumerated candidate. -/
theorem selectActive_empty_and_first_fallback :
    (∀ lastActive : Option String,
      (selectActive [] lastActive).fst = Except.error PlayerError.noPlayerFound) ∧
    ∀ (p : Player) (rest : List Player) (lastActive : Option String),
      (∀ q ∈ p :: rest, q.status ≠ some "Playing") →
      (∀ lp, lastActive = some lp → lp ∉ (p :: rest).map Player.name) →
      selectActive (p :: rest) lastActive = (Except.ok p.name, lastActive) := by
  constructor
  · intro lastActive
    cases lastActive with
    | none => rfl
    | some lp => rfl
  · intro p rest lastActive hnp hnl
    have hf : (p :: rest).find? isPlaying = none := by
      rw [List.find?_eq_none]
      intro x hx
      simp [isPlaying, hnp x hx]
    cases lastActive with
    | none =>
      simp only [selectActive, hf]
      rfl
    | some lp =>
      have hany : (p :: rest).any (fun q => q.name == lp) = false := by
        rw [List.any_eq_false]
        intro q hq hbeq
        exact hnl lp rfl (List.mem_map.mpr ⟨q, hq, by simpa using hbeq⟩)
      simp only [selectActive, hf]
      rw [if_neg (by simp [hany])]
      rfl

/-- Witness for C7: the empty set errors; two non-Playing candidates with a
stale remembered player yield the first candidate. -/
theorem selectActive_empty_and_first_fallback_witness :
    (selectActive [] none).fst = Except.error PlayerError.noPlayerFound ∧
    selectActive
      [Player.mk "org.mpris.MediaPlayer2.a" (some "Paused"),
       Player.mk "org.mpris.MediaPlayer2.b" none]
      (some "org.mpris.MediaPlayer2.gone") =
      (Except.ok "org.mpris.MediaPlayer2.a", some "org.mpris.MediaPlayer2.gone") :=
  ⟨selectActive_empty_and_first_fallback.1 none,
   selectActive_empty_and_first_fallback.2
     (Player.mk "org.mpris.MediaPlayer2.a" (some "Paused"))
     [Player.mk "org.mpris.MediaPlayer2.b" none]
     (some "org.mpris.MediaPlayer2.gone")
     (by decide)
     (by intro lp h
         injection h with h2
         subst h2
         decide)⟩

theorem selectActive_ok_mem (candidates : List Player) (lastActive : Option String)
    (x : String) (hok : (selectActive candidates lastActive).fst = Except.ok x) :
    x ∈ candidates.map Player.name := by
  have hfc : ∀ la : Option String, (firstCandidate candidates la).fst = Except.ok x →
      x ∈ candidates.map Player.name := by
    intro la hfb
    cases candidates with
    | nil => simp [firstCandidate] at hfb
    | cons p rest =>
      simp [firstCandidate] at hfb
      subst hfb
      exact List.mem_map.mpr ⟨p, List.mem_cons_self p rest, rfl⟩
  cases hfind : candidates.find? isPlaying with
  | some p =>
    simp only [selectActive, hfind] at hok
    simp at hok
    subst hok
    exact List.mem_map.mpr ⟨p, List.mem_of_find?_eq_some hfind, rfl⟩
  | none =>
    cases lastActive with
    | none =>
      simp only [selectActive, hfind] at hok
      exact hfc none hok
    | some lp =>
      simp only [selectActive, hfind] at hok
      by_cases hany : candidates.any (fun q => q.name == lp) = true
      · rw [if_pos hany] at hok
        simp at hok
        subst hok
        obtain ⟨q, hq, hbeq⟩ := List.any_eq_true.mp hany
        have hname : q.name = lp := by simpa using hbeq
        exact List.mem_map.mpr ⟨q, hq, hname⟩
      · rw [if_neg (by simpa using hany)] at hok
        exact hfc (some lp) hok

/-- C9: the candidate set is exactly the bus names under the MPRIS name space
other than playerctld, and every successful selection returns such a name. -/
theorem findActivePlayer_candidates (names : List String)
    (statusOf : String → Option String) (lastActive : Option String) :
    (∀ n, n ∈ mprisCandidates names ↔
      (n ∈ names ∧ strStartsWith n "org.mpris.MediaPlayer2." = true ∧
        n ≠ "org.mpris.MediaPlayer2.playerctld")) ∧
    ∀ x, (findActivePlayer names statusOf lastActive).fst = Except.ok x →
      (x ∈ names ∧ strStartsWith x "org.mpris.MediaPlayer2." = true ∧
        x ≠ "org.mpris.MediaPlayer2.playerctld") := by
  have hchar : ∀ n, n ∈ mprisCandidates names ↔
      (n ∈ names ∧ strStartsWith n "org.mpris.MediaPlayer2." = true ∧
        n ≠ "org.mpris.MediaPlayer2.playerctld") := by
    intro n
    simp [mprisCandidates, List.mem_filter, bne_iff_ne, and_assoc]
  refine ⟨hchar, ?_⟩
  intro x hok
  have hmem : x ∈ ((mprisCandidates names).map
      (fun n => Player.mk n (statusOf n))).map Player.name :=
    selectActive_ok_mem _ _ _ hok
  have hmem2 : x ∈ mprisCandidates names := by simpa using hmem
  exact (hchar x).mp hmem2

/-- Witness for C9: among three bus names only the non-playerctld MPRIS name
is a candidate, and the selected handle is that name. -/
theorem findActivePlayer_candidates_witness :
    ("org.mpris.MediaPlayer2.vlc" ∈
        ["org.freedesktop.DBus", "org.mpris.MediaPlayer2.playerctld",
         "org.mpris.MediaPlayer2.vlc"] ∧
      strStartsWith "org.mpris.MediaPlayer2.vlc" "org.mpris.MediaPlayer2." = true ∧
      "org.mpris.MediaPlayer2.vlc" ≠ "org.mpris.MediaPlayer2.playerctld") :=
  (findActivePlayer_candidates
    ["org.freedesktop.DBus", "org.mpris.MediaPlayer2.playerctld",
     "org.mpris.MediaPlayer2.vlc"]
    (fun _ => some "Playing") none).2 "org.mpris.MediaPlayer2.vlc" (by rfl)

theorem lookupState_insertState (states : DialStates) (instanceId : String)
    (v : Nat × Nat) :
    lookupState (insertState states instanceId v) instanceId = some v := by
  simp [lookupState, insertState]

/-- C5: in browse mode the cursor moves modulo the freshly recomputed cyclable
length `live + 1`: rotating forward from the last index wraps to 0, rotating
backward from index 0 wraps to the last index. -/
theorem dialRotate_browse_wraps (instanceId : String) (pactlShortLines : List String)
    (states : DialStates) (cursor sink : Nat)
    (hlive : 1 ≤ (pactlShortLines.filter (fun l => l != "")).length)
    (hcur : lookupState states instanceId = some (cursor, sink)) :
    (cursor = (pactlShortLines.filter (fun l => l != "")).length →
      ((lookupState (dialRotate true instanceId 1 pactlShortLines states).fst
          instanceId).map Prod.fst) = some 0) ∧
    (cursor = 0 →
      ((lookupState (dialRotate true instanceId (-1) pactlShortLines states).fst
          instanceId).map Prod.fst) =
        some (pactlShortLines.filter (fun l => l != "")).length) := by
  constructor
  · intro hlast
    simp only [dialRotate, if_true, dialRotateBrowse, hcur, Option.map_some,
      Option.getD_some, lookupState_insertState]
    norm_num [hlast, Nat.mod_self]
  · intro hzero
    simp only [dialRotate, if_true, dialRotateBrowse, hcur, Option.map_some,
      Option.getD_some, lookupState_insertState, hzero]
    norm_num

/-- Witness for C5: two live sink inputs (cyclable length 3): forward from
index 2 wraps to 0, backward from 0 wraps to 2. -/
theorem dialRotate_browse_wraps_witness :
    ((lookupState (dialRotate true "surface" 1 ["31 x", "57 y"]
        [("surface", (2, 57))]).fst "surface").map Prod.fst) = some 0 ∧
    ((lookupState (dialRotate true "surface" (-1) ["31 x", "57 y"]
        [("surface", (0, 0))]).fst "surface").map Prod.fst) = some 2 :=
  ⟨(dialRotate_browse_wraps "surface" ["31 x", "57 y"] [("surface", (2, 57))]
      2 57 (by decide) (by decide)).1 (by decide),
   (dialRotate_browse_wraps "surface" ["31 x", "57 y"] [("surface", (0, 0))]
      0 0 (by decide) (by decide)).2 rfl⟩

/-- C10: a rotation with the encoder not pressed (volume-adjust mode) leaves
the per-instance DIAL_STATES map untouched; only the browse branch writes it. -/
theorem dialRotate_volume_keeps_states (instanceId : String) (ticks : Int)
    (pactlShortLines : List String) (states : DialStates) :
    (dialRotate false instanceId ticks pactlShortLines states).fst = states := by
  simp only [dialRotate, Bool.false_eq_true, if_false]
  by_cases hsel : (((lookupState states instanceId).map Prod.snd).getD 0 == 0) = true
  · rw [if_pos hsel]
  · rw [if_neg hsel]

theorem b64Alphabet_length : b64Alphabet.length = 64 := by decide

theorem b64Val_b64Char : ∀ n, n < 64 → b64Val (b64Char n) = some n := by decide

theorem b64Char_ne_pad (n : Nat) : b64Char n ≠ '=' := by
  rcases Nat.lt_or_ge n 64 with h | h
  · exact (by decide : ∀ m, m < 64 → b64Char m ≠ '=') n h
  · have hlen : b64Alphabet.length ≤ n := by
      rw [b64Alphabet_length]
      omega
    unfold b64Char
    rw [List.getD_eq_getElem?_getD, List.getElem?_eq_none hlen]
    decide

theorem b64_roundtrip : ∀ bytes : List Nat, (∀ b ∈ bytes, b < 256) →
    b64DecodeList (b64EncodeList bytes) = some bytes := by
  intro bytes
  induction bytes using b64EncodeList.induct with
  | case1 =>
    intro _
    rfl
  | case2 b0 =>
    intro hb
    have h0 : b0 < 256 := hb b0 (by simp)
    simp only [b64EncodeList, b64DecodeList]
    rw [b64Val_b64Char (b0 / 4) (by omega)]
    simp only [Option.some_bind]
    rw [b64Val_b64Char (b0 % 4 * 16) (by omega)]
    simp only [Option.some_bind, if_pos rfl, reduceIte]
    congr 2
    omega
  | case3 b0 b1 =>
    intro hb
    have h0 : b0 < 256 := hb b0 (by simp)
    have h1 : b1 < 256 := hb b1 (by simp)
    simp only [b64EncodeList, b64DecodeList]
    rw [b64Val_b64Char (b0 / 4) (by omega)]
    simp only [Option.some_bind]
    rw [b64Val_b64Char (b0 % 4 * 16 + b1 / 16) (by omega)]
    simp only [Option.some_bind]
    rw [if_neg (b64Char_ne_pad _)]
    rw [b64Val_b64Char (b1 % 16 * 4) (by omega)]
    simp only [Option.some_bind, if_pos rfl, reduceIte]
    congr 2
    · omega
    · congr 1
      omega
  | case4 b0 b1 b2 rest ih =>
    intro hb
    have h0 : b0 < 256 := hb b0 (by simp)
    have h1 : b1 < 256 := hb b1 (by simp)
    have h2 : b2 < 256 := hb b2 (by simp)
    have hrest : ∀ b ∈ rest, b < 256 := fun b hbr => hb b (by simp [hbr])
    simp only [b64EncodeList, b64DecodeList]
    rw [b64Val_b64Char (b0 / 4) (by omega)]
    simp only [Option.some_bind]
    rw [b64Val_b64Char (b0 % 4 * 16 + b1 / 16) (by omega)]
    simp only [Option.some_bind]
    rw [if_neg (b64Char_ne_pad _)]
    rw [b64Val_b64Char (b1 % 16 * 4 + b2 / 64) (by omega)]
    simp only [Option.some_bind]
    rw [if_neg (b64Char_ne_pad _)]
    rw [b64Val_b64Char (b2 % 64) (by omega)]
    simp only [Option.some_bind]
    rw [ih hrest]
    simp only [Option.map_some']
    congr 1
    congr 1
    · omega
    congr 1
    · omega
    congr 1
    omega

/-- C6 counterexample: resolving a reference whose fetched payload is
zero-length does not fail — the code never checks for emptiness and returns a
successful data URL with empty encoded content. -/
theorem fetchZeroLength_counterexample :
    fetchAndConvertToDataUrl (fun _ => Except.ok []) (fun _ => Except.ok [])
      (fun _ => none) "file:///tmp/empty.png" =
      Except.ok "data:application/octet-stream;base64," := by
  rfl

/-- C6 (amended): on a zero-length fetched payload the resolver succeeds,
returning a data URL whose encoded byte content is empty; only the fetch
itself failing yields an error. -/
theorem fetchZeroLength_succeeds (readFile httpGet : String → Except FetchError (List Nat))
    (inferMime : List Nat → Option String) (url : String)
    (hnotdata : strStartsWith url "data:" = false)
    (hfetch : fetchBytes readFile httpGet url = Except.ok []) :
    fetchAndConvertToDataUrl readFile httpGet inferMime url =
      Except.ok ("data:" ++ ((inferMime []).getD "application/octet-stream") ++
        ";base64," ++ base64Encode []) ∧
    base64Encode [] = "" := by
  constructor
  · simp only [fetchAndConvertToDataUrl, hnotdata, Bool.false_eq_true, if_false, hfetch]
    rfl
  · rfl

/-- Witness for the amended C6: an empty HTTP payload resolves successfully
with empty base64 content. -/
theorem fetchZeroLength_succeeds_witness :
    fetchAndConvertToDataUrl (fun _ => Except.ok []) (fun _ => Except.ok [])
      (fun _ => none) "http://example.com/art.png" =
      Except.ok ("data:" ++ ((none : Option String).getD "application/octet-stream") ++
        ";base64," ++ base64Encode []) ∧
    base64Encode [] = "" :=
  fetchZeroLength_succeeds (fun _ => Except.ok []) (fun _ => Except.ok [])
    (fun _ => none) "http://example.com/art.png" (by rfl) (by rfl)

/-- C8: every successfully resolved payload is the MIME prefix followed by the
base64 encoding of the fetched bytes, and decoding that remainder reproduces
the source bytes exactly. -/
theorem artResolver_roundtrip (readFile httpGet : String → Except FetchError (List Nat))
    (inferMime : List Nat → Option String) (url : String) (bytes : List Nat)
    (hnotdata : strStartsWith url "data:" = false)
    (hfetch : fetchBytes readFile httpGet url = Except.ok bytes)
    (hbytes : ∀ b ∈ bytes, b < 256) :
    fetchAndConvertToDataUrl readFile httpGet inferMime url =
      Except.ok ("data:" ++ ((inferMime bytes).getD "application/octet-stream") ++
        ";base64," ++ base64Encode bytes) ∧
    b64DecodeList (base64Encode bytes).toList = some bytes := by
  constructor
  · simp only [fetchAndConvertToDataUrl, hnotdata, Bool.false_eq_true, if_false, hfetch]
    rfl
  · have hchars : (base64Encode bytes).toList = b64EncodeList bytes := rfl
    rw [hchars]
    exact b64_roundtrip bytes hbytes

/-- Witness for C8: the bytes of "Man" resolve to a payload whose base64
remainder decodes back to the same bytes. -/
theorem artResolver_roundtrip_witness :
    fetchAndConvertToDataUrl (fun _ => Except.ok [77, 97, 110])
      (fun _ => Except.ok [77, 97, 110]) (fun _ => some "image/png")
      "http://example.com/cover" =
      Except.ok ("data:" ++ (some "image/png").getD "application/octet-stream" ++
        ";base64," ++ base64Encode [77, 97, 110]) ∧
    b64DecodeList (base64Encode [77, 97, 110]).toList = some [77, 97, 110] :=
  artResolver_roundtrip (fun _ => Except.ok [77, 97, 110])
    (fun _ => Except.ok [77, 97, 110]) (fun _ => some "image/png")
    "http://example.com/cover" [77, 97, 110] (by rfl) (by rfl) (by decide)

end PlayMix
